import Mathlib

/-!
Shallow embedding of `src/spi_flash_cb.c` (SPI-Flash-Circular-Buffer driver)
and a verification of spec-level properties of its job API and worker FSM.

Machine integers are modelled as `Nat` with explicit `% 2^w` reductions at
the points where the C code stores into a narrower field or where C
arithmetic can wrap.  The shared SPI packet buffer `uint8Spi` is modelled as
a `List Nat` of byte values: writing beyond the end of the list (as the C
code can do with an oversized `memset`) grows the list, which makes
out-of-bounds writes observable as `spi.length` exceeding the configured
buffer size.
-/

namespace SFCBM

/-- Flash geometry, opcode descriptor and SPI buffer size.
Modelled from the spec: the descriptor table `SPI_FLASH_CB_TYPES` (one entry
is selected at init) and the compile-time constant `SFCB_SPI_BUF` are defined
in `spi_flash_cb_hal.h` / `spi_flash_cb.h`, which are not part of `src/`;
the fields follow spec section 3 "Flash Descriptor". -/
structure Cfg where
  totalSize : Nat
  sectorSize : Nat
  pageSize : Nat
  pagesPerSector : Nat
  istRdData : Nat
  istRdStateReg : Nat
  istWrEnable : Nat
  istEraseSector : Nat
  istWrPage : Nat
  wipMsk : Nat
  spiBufSize : Nat
deriving DecidableEq, Repr

/-- One queue descriptor, mirroring `spi_flash_cb_elem` (fields `uint8Used`,
`uint8Init`, `uint32MagicNum`, `uint16NumPagesPerElem`, `uint32StartSector`,
`uint32StopSector`, `uint16NumEntriesMax`, `uint16NumEntries`,
`uint32IdNumMin`, `uint32IdNumMax`, `uint32StartPageIdMin`,
`uint32StartPageWrite`). -/
structure spi_flash_cb_elem where
  used : Bool
  init : Bool
  magicNum : Nat
  numPagesPerElem : Nat
  startSector : Nat
  stopSector : Nat
  numEntriesMax : Nat
  numEntries : Nat
  idNumMin : Nat
  idNumMax : Nat
  startPageIdMin : Nat
  startPageWrite : Nat
deriving DecidableEq, Repr

/-- Default element value, used where the C code would read uninitialised
or out-of-range queue-table memory. -/
def elem0 : spi_flash_cb_elem :=
  { used := false, init := false, magicNum := 0, numPagesPerElem := 0,
    startSector := 0, stopSector := 0, numEntriesMax := 0, numEntries := 0,
    idNumMin := 0, idNumMax := 0, startPageIdMin := 0, startPageWrite := 0 }

/-- The worker command, mirroring the `cmd` enum `{IDLE, MKCB, ADD, GET, RAW}`. -/
inductive Cmd where
  | idle | mkcb | add | get | raw
deriving DecidableEq, Repr

/-- The FSM stage, mirroring `SFCB_STG_00 .. SFCB_STG_03`. -/
inductive Stg where
  | s00 | s01 | s02 | s03
deriving DecidableEq, Repr

/-- The error field, mirroring the `error` enum `{NO, SPI_BUF_SIZE, ...}`. -/
inductive Err where
  | no | spiBufSz
deriving DecidableEq, Repr

/-- The driver handle, mirroring `spi_flash_cb` (fields `uint8NumCbs`,
`ptrCbs`, `uint8Spi`, `uint16SpiLen`, `uint8Busy`, `cmd`, `uint8Stg`,
`error`, `uint8IterCb`, `uint16IterElem`, `uint32IterPage`, `uint16DataLen`,
`ptrData`).  The caller's data buffer `ptrData` is modelled by value as the
byte list `data`. -/
structure spi_flash_cb where
  numCbs : Nat
  cbs : List spi_flash_cb_elem
  spi : List Nat
  spiLen : Nat
  busy : Bool
  cmd : Cmd
  stg : Stg
  error : Err
  iterCb : Nat
  iterElem : Nat
  iterPage : Nat
  dataLen : Nat
  data : List Nat
deriving DecidableEq, Repr

/-- `spi_flash_cb_ceildivide` from the source, verbatim. -/
def spi_flash_cb_ceildivide (dividend divisor : Nat) : Nat :=
  if dividend ≠ 0 then 1 + (dividend - 1) / divisor
  else (dividend + divisor - 1) / divisor

/-- `spi_flash_cb_max` from the source; its C parameters are `uint16_t`,
so callers truncate arguments to 16 bit before the call. -/
def spi_flash_cb_max (val1 val2 : Nat) : Nat :=
  if val1 > val2 then val1 else val2

/-- Write a single byte of the SPI buffer (`self->uint8Spi[i] = v`). -/
def setByte (buf : List Nat) (i v : Nat) : List Nat :=
  buf.set i v

/-- `memset(self->uint8Spi, 0, n)`: zeroes bytes `0..n-1`; if `n` exceeds the
current buffer extent the write goes out of bounds, which the model renders
by growing the list. -/
def memsetBuf (buf : List Nat) (n : Nat) : List Nat :=
  List.replicate n 0 ++ buf.drop n

/-- `memcpy(buf + off, src, src.length)`. -/
def writeBytes (buf : List Nat) (off : Nat) (src : List Nat) : List Nat :=
  buf.take off ++ src ++ buf.drop (off + src.length)

/-- Little-endian byte decomposition of a `uint32_t` value. -/
def u32le (v : Nat) : List Nat :=
  [v % 256, v / 256 % 256, v / 65536 % 256, v / 16777216 % 256]

/-- Read a little-endian `uint32_t` from the buffer at byte offset `off`
(the C code casts `&uint8Spi[off]` to `spi_flash_cb_elem_head*`). -/
def readU32LE (buf : List Nat) (off : Nat) : Nat :=
  buf.getD off 0 + 256 * buf.getD (off + 1) 0 +
    65536 * buf.getD (off + 2) 0 + 16777216 * buf.getD (off + 3) 0

/-- High byte of a 24-bit wire address (`(a >> 16) & 0xFF`). -/
def adrHi (a : Nat) : Nat := a / 65536 % 256

/-- Middle byte of a 24-bit wire address (`(a >> 8) & 0xFF`). -/
def adrMid (a : Nat) : Nat := a / 256 % 256

/-- Low byte of a 24-bit wire address (`a & 0xFF`). -/
def adrLo (a : Nat) : Nat := a % 256

/-- The all-`0xFF` check of MKCB stage 1 over response bytes `4..11`
(`for i = 4; i < 4 + sizeof(spi_flash_cb_elem_head); i++`). -/
def allFF (buf : List Nat) : Bool :=
  (List.range 8).all fun i => buf.getD (4 + i) 0 == 255

/-- Job termination as performed by the worker: `spi_len = 0`, `cmd = IDLE`,
`stage = S0`, `busy = false`. -/
def terminateJob (s : spi_flash_cb) : spi_flash_cb :=
  { s with spiLen := 0, cmd := Cmd.idle, stg := Stg.s00, busy := false }

/-- The read-status request emitted by every stage-0 WIP poll. -/
def wipRequest (c : Cfg) (s : spi_flash_cb) : spi_flash_cb :=
  { s with spi := setByte (setByte s.spi 0 c.istRdStateReg) 1 0, spiLen := 2 }

/-- The stage-0 guard: `0 == spiLen || 0 != (spi[1] & wipMsk)`. -/
def wipPending (c : Cfg) (s : spi_flash_cb) : Bool :=
  s.spiLen == 0 || Nat.land (s.spi.getD 1 0) c.wipMsk != 0

/-- The look-ahead loop of MKCB stage 1 (`for i = iterCb; i < numCbs; i++`):
`none` means an unused slot was met and the job terminates; `some (some j)`
means the loop broke at an uninitialised queue `j`; `some none` means the
loop ran off the end without a break. `fuel` is `numCbs - i`. -/
def lookAheadAux (cbs : List spi_flash_cb_elem) (fuel i : Nat) :
    Option (Option Nat) :=
  match fuel with
  | 0 => some none
  | f + 1 =>
    if (cbs.getD i elem0).used = false then none
    else if (cbs.getD i elem0).init = false then some (some i)
    else lookAheadAux cbs f (i + 1)

/-- MKCB stage 1 of `sfcb_worker`: consume the previous read-data response,
assemble the next header read, advance the iterators, and either continue,
move to the erase stages, or terminate. -/
def mkcbS01 (c : Cfg) (s : spi_flash_cb) : spi_flash_cb :=
  -- check last response
  let s :=
    if s.spiLen ≠ 0 then
      let e := s.cbs.getD s.iterCb elem0
      if readU32LE s.spi 4 = e.magicNum then
        let rdId := readU32LE s.spi 8
        let e := { e with numEntries := (e.numEntries + 1) % 65536 }
        let e := if rdId > e.idNumMax then { e with idNumMax := rdId } else e
        let e :=
          if e.idNumMin > rdId then
            { e with idNumMin := rdId, startPageIdMin := s.iterPage }
          else e
        { s with cbs := s.cbs.set s.iterCb e }
      else
        if e.init = false && allFF s.spi then
          let e2 := { e with startPageWrite := s.iterPage, init := true }
          { s with cbs := s.cbs.set s.iterCb e2 }
        else s
    else s
  -- request next header of circular buffer
  let e := s.cbs.getD s.iterCb elem0
  let pg := (e.startSector * c.sectorSize +
             e.numPagesPerElem * c.pageSize * s.iterElem) % 4294967296
  let buf := memsetBuf s.spi 12
  let buf := setByte buf 0 c.istRdData
  let buf := setByte buf 1 (adrHi pg)
  let buf := setByte buf 2 (adrMid pg)
  let buf := setByte buf 3 (adrLo pg)
  let s := { s with iterPage := pg, spiLen := 12, spi := buf }
  -- prepare iterator for next
  if s.iterElem < e.numEntriesMax then
    { s with iterElem := s.iterElem + 1 }
  else if e.init then
    let s := { s with iterElem := 0, iterCb := (s.iterCb + 1) % 256 }
    match lookAheadAux s.cbs (s.numCbs - s.iterCb) s.iterCb with
    | none => terminateJob s
    | some (some j) =>
      let s := { s with iterCb := j }
      if s.iterCb < s.numCbs then s else terminateJob s
    | some none =>
      if s.iterCb < s.numCbs then s else terminateJob s
  else
    { s with spi := setByte s.spi 0 c.istWrEnable, spiLen := 1, stg := Stg.s02 }

/-- MKCB stage 2 of `sfcb_worker`: assemble the erase-sector command;
the source loads `uint32Temp` from `uint32IdNumMin` and uses it as the
24-bit wire address. -/
def mkcbS02 (c : Cfg) (s : spi_flash_cb) : spi_flash_cb :=
  let t := (s.cbs.getD s.iterCb elem0).idNumMin
  let buf := setByte s.spi 0 c.istEraseSector
  let buf := setByte buf 1 (adrHi t)
  let buf := setByte buf 2 (adrMid t)
  let buf := setByte buf 3 (adrLo t)
  { s with spi := buf, spiLen := 4, stg := Stg.s03 }

/-- MKCB stage 3 of `sfcb_worker`: restart the free-page search after the
erase and fall back to the WIP poll. -/
def mkcbS03 (c : Cfg) (s : spi_flash_cb) : spi_flash_cb :=
  { s with iterElem := 0,
           spi := setByte (setByte s.spi 0 c.istRdStateReg) 1 0,
           spiLen := 2, stg := Stg.s00 }

/-- ADD stage 1 of `sfcb_worker`: emit write-enable when payload bytes
remain, otherwise terminate the job. -/
def addS01 (c : Cfg) (s : spi_flash_cb) : spi_flash_cb :=
  if s.iterElem < s.dataLen then
    { s with spi := setByte s.spi 0 c.istWrEnable, spiLen := 1, stg := Stg.s02 }
  else
    terminateJob s

/-- The on-flash record header `{magic, idNumMax + 1}` assembled by ADD
stage 2 on the first fragment of an element. -/
def addHeadBytes (e : spi_flash_cb_elem) : List Nat :=
  u32le e.magicNum ++ u32le ((e.idNumMax + 1) % 4294967296)

/-- ADD stage 2 of `sfcb_worker`: assemble one page-program packet,
prepending the record header on the first fragment. -/
def addS02 (c : Cfg) (s : spi_flash_cb) : spi_flash_cb :=
  let e := s.cbs.getD s.iterCb elem0
  let buf := setByte s.spi 0 c.istWrPage
  let buf := setByte buf 1 (adrHi s.iterPage)
  let buf := setByte buf 2 (adrMid s.iterPage)
  let buf := setByte buf 3 (adrLo s.iterPage)
  let spiLen := 4
  let avail := c.pageSize % 65536
  let step :=
    if s.iterElem = 0 then
      (writeBytes buf spiLen (addHeadBytes e), spiLen + 8,
       (avail + 65536 - 8) % 65536)
    else (buf, spiLen, avail)
  let buf := step.1
  let spiLen := step.2.1
  let avail := step.2.2
  let cpyLen :=
    if s.dataLen - s.iterElem > avail then avail else s.dataLen - s.iterElem
  let buf := writeBytes buf spiLen ((s.data.drop s.iterElem).take cpyLen)
  { s with spi := buf, spiLen := (spiLen + cpyLen) % 65536,
           iterElem := s.iterElem + cpyLen,
           iterPage := (s.iterPage + 1) % 4294967296,
           stg := Stg.s00 }

/-- RAW stage 1 of `sfcb_worker`.  When `SFCB_SPI_BUF < dataLen + 4` the
source sets the error and the idle markers but has no `return`, so control
falls through: the oversized read packet is still assembled (with an
out-of-bounds `memset`) and the stage is overwritten to stage 2. -/
def rawS01 (c : Cfg) (s : spi_flash_cb) : spi_flash_cb :=
  let s :=
    if c.spiBufSize < s.dataLen + 4 then
      { s with busy := false, cmd := Cmd.idle, stg := Stg.s00,
               error := Err.spiBufSz }
    else s
  let n := (s.dataLen + 4) % 65536
  let buf := memsetBuf s.spi n
  let buf := setByte buf 0 c.istRdData
  let buf := setByte buf 1 (adrHi s.iterPage)
  let buf := setByte buf 2 (adrMid s.iterPage)
  let buf := setByte buf 3 (adrLo s.iterPage)
  { s with spiLen := n, spi := buf, stg := Stg.s02 }

/-- RAW stage 2 of `sfcb_worker`: copy the response payload to the caller's
buffer and terminate. -/
def rawS02 (s : spi_flash_cb) : spi_flash_cb :=
  { s with data := (s.spi.drop 4).take s.dataLen,
           spiLen := 0, cmd := Cmd.idle, stg := Stg.s00, busy := false }

/-- `sfcb_worker` from the source: dispatch on `(cmd, stage)`.  Stage 0 of
each job is the WIP poll, falling through into stage 1 when the flash is
idle (MKCB and RAW zero `spiLen` on the fall-through, ADD does not).
`cmd = GET` has no case in the source switch and does nothing. -/
def sfcb_worker (c : Cfg) (s : spi_flash_cb) : spi_flash_cb :=
  match s.cmd with
  | Cmd.idle => s
  | Cmd.get => s
  | Cmd.mkcb =>
    match s.stg with
    | Stg.s00 =>
      if wipPending c s then wipRequest c s
      else mkcbS01 c { s with spiLen := 0, stg := Stg.s01 }
    | Stg.s01 => mkcbS01 c s
    | Stg.s02 => mkcbS02 c s
    | Stg.s03 => mkcbS03 c s
  | Cmd.add =>
    match s.stg with
    | Stg.s00 =>
      if wipPending c s then wipRequest c s
      else addS01 c { s with stg := Stg.s01 }
    | Stg.s01 => addS01 c s
    | Stg.s02 => addS02 c s
    | Stg.s03 => s
  | Cmd.raw =>
    match s.stg with
    | Stg.s00 =>
      if wipPending c s then wipRequest c s
      else rawS01 c { s with spiLen := 0, stg := Stg.s01 }
    | Stg.s01 => rawS01 c s
    | Stg.s02 => rawS02 s
    | Stg.s03 => s

/-- The free-slot search loop of `sfcb_new_cb`: returns the first unused
slot index together with the accumulated start sector
(`uint32StartSector = stop_sector_of_previous + 1`). `fuel` is
`numCbs - i`. -/
def findFree (cbs : List spi_flash_cb_elem) (fuel i start : Nat) :
    Option (Nat × Nat) :=
  match fuel with
  | 0 => none
  | f + 1 =>
    if (cbs.getD i elem0).used = false then some (i, start)
    else findFree cbs f (i + 1)
      (((cbs.getD i elem0).stopSector + 1) % 4294967296)

/-- `uint16NumPagesPerElem` as computed and stored by `sfcb_new_cb`:
`uint8NumHeadBytes` is `2*sizeof(uint32MagicNum) + sizeof(uint32IdNumMax)
= 12`, and the result is stored into a `uint16_t` field. -/
def regPpe (c : Cfg) (elemSizeByte : Nat) : Nat :=
  spi_flash_cb_ceildivide (elemSizeByte + 12) c.pageSize % 65536

/-- `uint32NumSectors` as computed by `sfcb_new_cb`: the ceiling is passed
through the `uint16_t` second parameter of `spi_flash_cb_max`. -/
def regNumSectors (c : Cfg) (elemSizeByte numElems : Nat) : Nat :=
  spi_flash_cb_max 2
    (spi_flash_cb_ceildivide (numElems * regPpe c elemSizeByte)
      c.pagesPerSector % 65536)

/-- The slot contents written by a successful `sfcb_new_cb` (the fields it
does not assign — `init`, `startPageIdMin`, `startPageWrite` — keep their
previous, possibly uninitialised, values). -/
def newCbElem (c : Cfg) (old : spi_flash_cb_elem)
    (magicNum elemSizeByte numElems start : Nat) : spi_flash_cb_elem :=
  { old with
    used := true,
    idNumMax := 0,
    idNumMin := 4294967295,
    magicNum := magicNum % 4294967296,
    numPagesPerElem := regPpe c elemSizeByte,
    startSector := start,
    stopSector :=
      (start + regNumSectors c elemSizeByte numElems - 1) % 4294967296,
    numEntriesMax :=
      regNumSectors c elemSizeByte numElems * c.pagesPerSector % 65536,
    numEntries := 0 }

/-- `sfcb_new_cb` from the source.  Returns
`(return code, written cbID, new state)`. -/
def sfcb_new_cb (c : Cfg) (s : spi_flash_cb)
    (magicNum elemSizeByte numElems : Nat) :
    Nat × Option Nat × spi_flash_cb :=
  match findFree s.cbs s.numCbs 0 0 with
  | none => (1, none, s)
  | some (k, start) =>
    let e := newCbElem c (s.cbs.getD k elem0) magicNum elemSizeByte
      numElems start
    (0, some k, { s with cbs := s.cbs.set k e })

/-- The queue-selection loop of `sfcb_mkcb`
(`for i < numCbs: if !used[i] || !init[i] break; iterCb = i`). -/
def mkcbFindStart (cbs : List spi_flash_cb_elem) (fuel i acc : Nat) : Nat :=
  match fuel with
  | 0 => acc
  | f + 1 =>
    if (cbs.getD i elem0).used = false ∨ (cbs.getD i elem0).init = false
    then acc
    else mkcbFindStart cbs f (i + 1) i

/-- `sfcb_mkcb` from the source: stage a mount/rebuild job. -/
def sfcb_mkcb (s : spi_flash_cb) : Nat × spi_flash_cb :=
  if s.busy then (1, s)
  else if (s.cbs.getD 0 elem0).used = false then (2, s)
  else
    (0, { s with iterCb := mkcbFindStart s.cbs s.numCbs 0 0,
                 cmd := Cmd.mkcb, iterElem := 0, stg := Stg.s00,
                 error := Err.no, busy := true })

/-- `sfcb_add` from the source: stage an append job.  The caller's payload
is captured by value in `data`. -/
def sfcb_add (c : Cfg) (s : spi_flash_cb) (cbID : Nat)
    (dataBytes : List Nat) (len : Nat) : Nat × spi_flash_cb :=
  if s.busy then (1, s)
  else if (s.cbs.getD cbID elem0).used = false ∨
          (s.cbs.getD cbID elem0).init = false then (2, s)
  else if len > (s.cbs.getD cbID elem0).numPagesPerElem * c.pageSize then
    (4, s)
  else
    (0, { s with iterCb := cbID,
                 cbs := s.cbs.set cbID
                   ({ s.cbs.getD cbID elem0 with init := false }),
                 iterPage := (s.cbs.getD cbID elem0).startPageWrite,
                 data := dataBytes, dataLen := len, iterElem := 0,
                 busy := true, cmd := Cmd.add, stg := Stg.s00,
                 error := Err.no })

/-- `sfcb_get` from the source: the job body is an unimplemented stub that
performs only the busy and initialised checks and stages nothing. -/
def sfcb_get (s : spi_flash_cb) (cbID : Nat) : Nat × spi_flash_cb :=
  if s.busy then (1, s)
  else if (s.cbs.getD cbID elem0).used = false ∨
          (s.cbs.getD cbID elem0).init = false then (2, s)
  else (0, s)

/-- `sfcb_flash_read` from the source: stage a raw flash read job. -/
def sfcb_flash_read (s : spi_flash_cb) (adr len : Nat) :
    Nat × spi_flash_cb :=
  if s.busy then (1, s)
  else
    (0, { s with dataLen := len, iterPage := adr,
                 busy := true, cmd := Cmd.raw, stg := Stg.s00,
                 error := Err.no })

/-- `sfcb_busy` from the source. -/
def sfcb_busy (s : spi_flash_cb) : Int :=
  if s.busy then -1 else 0

/-- `sfcb_spi_len` from the source. -/
def sfcb_spi_len (s : spi_flash_cb) : Nat :=
  s.spiLen

/-- Host-side model of one SPI transaction against a flash image
(`flash : Nat → Nat` maps byte address to byte value).  Modelled from the
spec, section 5: the host clocks `spiLen` bytes full duplex and stores the
response in the same buffer.  Read-status answers "idle" (WIP clear, per
the spec's progress assumption); read-data returns flash bytes from offset
4 on; write-enable and page-program leave the buffer alone (their response
bytes are never inspected); any other packet — in particular erase-sector,
which would mutate the image — is not modelled and yields `none`, so a
completed run certifies that no such packet was issued. -/
def transact (c : Cfg) (flash : Nat → Nat) (s : spi_flash_cb) :
    Option spi_flash_cb :=
  if s.spiLen = 0 then some s
  else if s.spi.getD 0 0 = c.istRdStateReg then
    some { s with spi := setByte s.spi 1 0 }
  else if s.spi.getD 0 0 = c.istRdData then
    let adr := s.spi.getD 1 0 * 65536 + s.spi.getD 2 0 * 256 + s.spi.getD 3 0
    let resp := s.spi.take 4 ++ (List.range (s.spiLen - 4)).map (fun i => flash (adr + i))
    some { s with spi := resp }
  else if s.spi.getD 0 0 = c.istWrEnable then some s
  else if s.spi.getD 0 0 = c.istWrPage then some s
  else none

/-- Drive a staged job to completion: alternate host transactions and
worker calls while the driver is busy, for at most `fuel` rounds. -/
def runJob (c : Cfg) (flash : Nat → Nat) :
    Nat → spi_flash_cb → Option spi_flash_cb
  | 0, s => if s.busy then none else some s
  | n + 1, s =>
    if s.busy = false then some s
    else
      match transact c flash s with
      | none => none
      | some t => runJob c flash n (sfcb_worker c t)

/-- A small flash geometry used for concrete runs: 8-byte pages, 2 pages
per sector, with common NOR opcodes. -/
def cfgT : Cfg :=
  { totalSize := 64, sectorSize := 16, pageSize := 8, pagesPerSector := 2,
    istRdData := 3, istRdStateReg := 5, istWrEnable := 6,
    istEraseSector := 216, istWrPage := 2, wipMsk := 1, spiBufSize := 32 }

/-- The spec's concrete scenario geometry: 256-byte pages, 16 pages per
sector, 4096-byte sectors. -/
def cfgS : Cfg :=
  { totalSize := 2097152, sectorSize := 4096, pageSize := 256,
    pagesPerSector := 16, istRdData := 3, istRdStateReg := 5,
    istWrEnable := 6, istEraseSector := 216, istWrPage := 2, wipMsk := 1,
    spiBufSize := 300 }

/-- A freshly initialised handle with `n` queue slots and a zeroed SPI
buffer of `bufSz` bytes, as left by `sfcb_init`. -/
def initState (n bufSz : Nat) : spi_flash_cb :=
  { numCbs := n, cbs := List.replicate n elem0,
    spi := List.replicate bufSz 0, spiLen := 0, busy := false,
    cmd := Cmd.idle, stg := Stg.s00, error := Err.no,
    iterCb := 0, iterElem := 0, iterPage := 0, dataLen := 0, data := [] }

/-- Flash image holding exactly one valid record for magic `0x0A` (id 1)
at page 0; everything else erased (`0xFF`). -/
def flashOneRec (a : Nat) : Nat :=
  if a = 0 then 10 else if a = 4 then 1 else if a < 8 then 0 else 255

/-- Fully erased flash image. -/
def flashFF (_ : Nat) : Nat := 255

/-- A queue descriptor as left by a completed mount: used, initialised,
one-page elements, next free page at byte address 512, highest seen id 7. -/
def mqElem : spi_flash_cb_elem :=
  { used := true, init := true, magicNum := 10, numPagesPerElem := 1,
    startSector := 0, stopSector := 1, numEntriesMax := 32, numEntries := 1,
    idNumMin := 1, idNumMax := 7, startPageIdMin := 0, startPageWrite := 512 }

/-- An idle driver handle owning the mounted queue `mqElem` on `cfgS`. -/
def mqState : spi_flash_cb := { initState 1 300 with cbs := [mqElem] }

/-! ### Concrete runs used by the claim analyses -/

/-- A staged raw-read job of 29 bytes on `cfgT`, whose 32-byte SPI buffer
is too small (`4 + 29 > 32`). -/
def c1job : spi_flash_cb := (sfcb_flash_read (initState 1 32) 0 29).2

/-- First worker call of `c1job`: emits the WIP poll. -/
def c1poll : spi_flash_cb := sfcb_worker cfgT c1job

/-- Second worker call of `c1job`, after the host's status response: this
is the call that reaches RAW stage 1 with the oversized length. -/
def c1res : spi_flash_cb :=
  sfcb_worker cfgT ((transact cfgT flashFF c1poll).getD c1poll)

/-- A queue descriptor mid-mount whose oldest record has id 5 and lives at
absolute page address 4096. -/
def c2elem : spi_flash_cb_elem :=
  { used := true, init := false, magicNum := 10, numPagesPerElem := 2,
    startSector := 0, stopSector := 1, numEntriesMax := 4, numEntries := 3,
    idNumMin := 5, idNumMax := 9, startPageIdMin := 4096,
    startPageWrite := 0 }

/-- A MKCB job at stage 2 (erase-sector assembly) over `c2elem`. -/
def c2state : spi_flash_cb :=
  { initState 1 32 with cbs := [c2elem], cmd := Cmd.mkcb, stg := Stg.s02,
                        busy := true, iterCb := 0, spiLen := 1 }

/-- The worker call that assembles the erase-sector packet. -/
def c2res : spi_flash_cb := sfcb_worker cfgT c2state

/-- One registered queue (magic `0x0A`, 4-byte elements, 2 entries) on the
small geometry `cfgT`. -/
def c3reg : spi_flash_cb := (sfcb_new_cb cfgT (initState 1 32) 10 4 2).2.2

/-- First completed mount of `c3reg` over the one-record flash image. -/
def c3m1 : Option spi_flash_cb :=
  runJob cfgT flashOneRec 20 (sfcb_mkcb c3reg).2

/-- Second completed mount, run from the state the first mount left. -/
def c3m2 : Option spi_flash_cb :=
  c3m1.bind fun s => runJob cfgT flashOneRec 20 (sfcb_mkcb s).2

/-- A successful 3-byte append staged on the mounted queue `mqState`. -/
def c4add : Nat × spi_flash_cb := sfcb_add cfgS mqState 0 [17, 34, 51] 3

/-- The append job of `c4add` driven to completion. -/
def c4fin : spi_flash_cb :=
  (runJob cfgS flashFF 10 c4add.2).getD (initState 1 300)

/-- Worker call 1 of the append job (WIP poll). -/
def c4w1 : spi_flash_cb :=
  sfcb_worker cfgS ((transact cfgS flashFF c4add.2).getD c4add.2)

/-- Worker call 2 of the append job (write enable). -/
def c4w2 : spi_flash_cb :=
  sfcb_worker cfgS ((transact cfgS flashFF c4w1).getD c4w1)

/-- Worker call 3 of the append job: assembles the page-program packet
carrying the record header. -/
def c4w3 : spi_flash_cb :=
  sfcb_worker cfgS ((transact cfgS flashFF c4w2).getD c4w2)

/-! ### Claim theorems -/

/-- C1: the claim states that an oversized RAW request terminates the job
completely, with `spi_len = 0`, `stage = S0` and no write at or beyond
index `SFCB_SPI_BUF` of the SPI buffer.  The source's RAW stage-1 error
path is missing its `return`: at a raw read of 29 bytes against a 32-byte
buffer the worker does set `error = SPI_BUF_SIZE`, `cmd = IDLE` and
`busy = false`, but control falls through, so the read-data packet is still
assembled, `spi_len` ends up `33 ≠ 0`, the stage is overwritten to `S2`,
and the `memset` writes bytes at indices `32` and beyond (the modelled
buffer grows from 32 to 33 bytes). -/
theorem c1_raw_error_path_falls_through :
    c1res.error = Err.spiBufSz ∧ c1res.cmd = Cmd.idle ∧
    c1res.busy = false ∧ c1res.spiLen = 33 ∧ c1res.stg = Stg.s02 ∧
    c1res.spi.getD 0 0 = cfgT.istRdData ∧
    cfgT.spiBufSize < c1res.spi.length := by decide

/-- C2: the claim states the MKCB stage-2 erase packet carries
`start_page_id_min` (here 4096) as its 24-bit address.  The source instead
loads `uint32IdNumMin` (here 5) into `uint32Temp` and serialises that, so
the emitted address bytes are `[0, 0, 5]`, decoding to the id value 5 and
not to the recorded page address 4096. -/
theorem c2_erase_address_is_id_value :
    (c2state.cbs.getD 0 elem0).idNumMin = 5 ∧
    (c2state.cbs.getD 0 elem0).startPageIdMin = 4096 ∧
    c2res.spi.take 4 = [cfgT.istEraseSector, 0, 0, 5] ∧
    c2res.spiLen = 4 ∧ c2res.stg = Stg.s03 ∧
    c2res.spi.getD 1 0 * 65536 + c2res.spi.getD 2 0 * 256 +
      c2res.spi.getD 3 0 ≠
      (c2state.cbs.getD 0 elem0).startPageIdMin := by decide

/-- C3: the claim states mount is idempotent.  `sfcb_mkcb` never resets
`uint16NumEntries`, so over a flash holding one valid record the first
mount completes with `num_entries = 1` but an immediately repeated mount
completes with `num_entries = 2`: the descriptor is not bitwise identical.
(The remaining fields are unchanged, and the `some` results certify that
neither run issued an erase or program packet.) -/
theorem c3_second_mount_double_counts :
    (c3m1.map fun s => ((s.cbs.getD 0 elem0).numEntries, s.busy)) =
      some (1, false) ∧
    (c3m2.map fun s => ((s.cbs.getD 0 elem0).numEntries,
        (s.cbs.getD 0 elem0).idNumMin, (s.cbs.getD 0 elem0).idNumMax,
        (s.cbs.getD 0 elem0).startPageWrite,
        (s.cbs.getD 0 elem0).startPageIdMin, s.busy)) =
      some (2, 1, 1, 16, 0, false) := by decide

set_option maxRecDepth 8000 in
/-- C4 counterexample: the claim states that a completed successful append
leaves `id_num_max` strictly greater than before.  On `mqState`
(`id_num_max = 7`) the append stages successfully, the job runs to idle,
yet the descriptor's `id_num_max` is still 7 — the ADD path never writes
it.  The record header on the wire does carry `id_num_max + 1 = 8` (byte 8
of the page-program packet), so only the flash image, not the descriptor,
records the new id. -/
theorem c4_idnummax_unchanged_at_concrete_append :
    c4add.1 = 0 ∧ (mqState.cbs.getD 0 elem0).idNumMax = 7 ∧
    runJob cfgS flashFF 10 c4add.2 = some c4fin ∧
    c4fin.busy = false ∧ (c4fin.cbs.getD 0 elem0).idNumMax = 7 ∧
    ¬ (c4fin.cbs.getD 0 elem0).idNumMax >
        (mqState.cbs.getD 0 elem0).idNumMax ∧
    c4w3.spi.getD 0 0 = cfgS.istWrPage ∧
    (c4w3.spi.drop 4).take 8 = addHeadBytes mqElem ∧
    c4w3.spi.getD 8 0 = 8 := by decide

/-- C5 counterexample fixture: a busy driver with a free queue slot. -/
def busyFree : spi_flash_cb := { initState 2 32 with busy := true }

/-- A busy driver whose only queue slot is used, so that every job-staging
call — `sfcb_new_cb` included — rejects. -/
def rejState : spi_flash_cb :=
  { initState 1 8 with busy := true, cbs := [{ elem0 with used := true }] }

/-- C5 counterexample: the claim states every job API call other than
`busy()`/`spi_len()` — explicitly including `register_queue` — returns
code 1 while the driver is busy.  `sfcb_new_cb` performs no busy check:
on a busy driver with a free slot it returns 0 and even mutates the queue
table (slot 0 becomes used). -/
theorem c5_register_queue_ignores_busy :
    busyFree.busy = true ∧
    (sfcb_new_cb cfgT busyFree 77 4 2).1 = 0 ∧
    (sfcb_new_cb cfgT busyFree 77 4 2).1 ≠ 1 ∧
    ((sfcb_new_cb cfgT busyFree 77 4 2).2.2.cbs.getD 0 elem0).used =
      true := by decide

/-- C6 counterexample: the claim states the append is rejected with code 4
exactly when `len > pages_per_element * page_size - sizeof(header)`.  On
`mqState` (`pages_per_element = 1`, `page_size = 256`, header 8 bytes) a
length of 250 exceeds the claimed bound `248`, yet the source compares
against `pages_per_element * page_size` without subtracting the header and
accepts the job with code 0. -/
theorem c6_add_accepts_len_above_claimed_bound :
    mqState.busy = false ∧ (mqState.cbs.getD 0 elem0).used = true ∧
    (mqState.cbs.getD 0 elem0).init = true ∧
    (mqState.cbs.getD 0 elem0).numPagesPerElem * cfgS.pageSize - 8 < 250 ∧
    (sfcb_add cfgS mqState 0 [] 250).1 = 0 ∧
    (sfcb_add cfgS mqState 0 [] 250).1 ≠ 4 := by decide

/-- C7 counterexample: the claim states the stored `pages_per_element`
equals `ceil((elem_size + 2*sizeof(u32)) / page_size)`, i.e. payload plus
8 header bytes.  The source's `uint8NumHeadBytes` is
`2*sizeof(uint32MagicNum) + sizeof(uint32IdNumMax) = 12`, so for
`elem_size = 246` on 256-byte pages it stores
`ceil(258/256) = 2`, while the claimed formula gives `ceil(254/256) = 1`. -/
theorem c7_ppe_counts_twelve_header_bytes :
    (sfcb_new_cb cfgS (initState 1 300) 10 246 8).1 = 0 ∧
    ((sfcb_new_cb cfgS (initState 1 300) 10 246 8).2.2.cbs.getD 0
        elem0).numPagesPerElem = 2 ∧
    spi_flash_cb_ceildivide (246 + 2 * 4) cfgS.pageSize = 1 ∧
    (2 : Nat) ≠ 1 := by decide

/-- C8 counterexample: the claim's formula
`num_entries_max = num_sectors * pages_per_sector` overflows the `uint16_t`
field.  Registering `elem_size = 4084`, `num_elems = 65535` on `cfgS`
succeeds with `num_sectors = 65535`, so the claimed value is
`65535 * 16 = 1048560`, but the stored field holds its 16-bit truncation
`65520`. -/
theorem c8_num_entries_max_truncated :
    (sfcb_new_cb cfgS (initState 1 300) 10 4084 65535).1 = 0 ∧
    ((sfcb_new_cb cfgS (initState 1 300) 10 4084 65535).2.2.cbs.getD 0
        elem0).numPagesPerElem = 16 ∧
    spi_flash_cb_max 2
      (spi_flash_cb_ceildivide (65535 * 16) cfgS.pagesPerSector % 65536) =
      65535 ∧
    ((sfcb_new_cb cfgS (initState 1 300) 10 4084 65535).2.2.cbs.getD 0
        elem0).numEntriesMax = 65520 ∧
    (65520 : Nat) ≠ 65535 * 16 := by decide

/-! ### Helper lemmas on the queue table and the free-slot search -/

theorem getD_set_self (l : List spi_flash_cb_elem) (i : Nat)
    (a : spi_flash_cb_elem) (h : i < l.length) :
    (l.set i a).getD i elem0 = a := by
  simp [List.getD, List.getElem?_set_self, h]

theorem getD_set_ne (l : List spi_flash_cb_elem) (i j : Nat)
    (a : spi_flash_cb_elem) (h : i ≠ j) :
    (l.set i a).getD j elem0 = l.getD j elem0 := by
  simp [List.getD, List.getElem?_set_ne, h]

theorem findFree_bound {cbs : List spi_flash_cb_elem} :
    ∀ {fuel i st k st'}, findFree cbs fuel i st = some (k, st') →
      i ≤ k ∧ k < i + fuel := by
  intro fuel
  induction fuel with
  | zero => intro i st k st' h; simp [findFree] at h
  | succ f ih =>
    intro i st k st' h
    unfold findFree at h
    split at h
    · simp only [Option.some.injEq, Prod.mk.injEq] at h
      omega
    · obtain ⟨h1, h2⟩ := ih h
      omega

theorem findFree_spec {cbs : List spi_flash_cb_elem} :
    ∀ {fuel i st k st'}, findFree cbs fuel i st = some (k, st') →
      (cbs.getD k elem0).used = false ∧
      (∀ j, i ≤ j → j < k → (cbs.getD j elem0).used = true) ∧
      st' = (if k = i then st
             else ((cbs.getD (k - 1) elem0).stopSector + 1) % 4294967296) := by
  intro fuel
  induction fuel with
  | zero => intro i st k st' h; simp [findFree] at h
  | succ f ih =>
    intro i st k st' h
    unfold findFree at h
    split at h
    · rename_i hused
      simp only [Option.some.injEq, Prod.mk.injEq] at h
      obtain ⟨hk, hst⟩ := h
      subst hk
      refine ⟨hused, ?_, by simp [hst.symm]⟩
      intro j hij hji
      omega
    · rename_i hused
      have husedT : (cbs.getD i elem0).used = true := by
        revert hused
        cases (cbs.getD i elem0).used <;> simp
      obtain ⟨hb1, hb2⟩ := findFree_bound h
      obtain ⟨hu, hj, hst⟩ := ih h
      refine ⟨hu, ?_, ?_⟩
      · intro j hij hji
        rcases Nat.eq_or_lt_of_le hij with hje | hji2
        · exact hje ▸ husedT
        · exact hj j hji2 hji
      · have hkne : k ≠ i := by omega
        rw [if_neg hkne]
        by_cases hk1 : k = i + 1
        · subst hk1
          simpa using hst
        · rw [if_neg hk1] at hst
          exact hst

/-! ### Amended and confirmed claim theorems -/

/-- C5 (amended): while the driver is busy, `mount`, `append`, `get` and
`read_raw` each return code 1 and stage nothing (the state is unchanged);
`register_queue` is exempt because `sfcb_new_cb` performs no busy check,
as the counterexample shows. -/
theorem c5_busy_rejects_jobs (c : Cfg) (s : spi_flash_cb)
    (q len adr rlen q2 : Nat) (bytes : List Nat) (h : s.busy = true) :
    (sfcb_mkcb s).1 = 1 ∧ (sfcb_mkcb s).2 = s ∧
    (sfcb_add c s q bytes len).1 = 1 ∧ (sfcb_add c s q bytes len).2 = s ∧
    (sfcb_get s q2).1 = 1 ∧ (sfcb_get s q2).2 = s ∧
    (sfcb_flash_read s adr rlen).1 = 1 ∧
    (sfcb_flash_read s adr rlen).2 = s := by
  simp [sfcb_mkcb, sfcb_add, sfcb_get, sfcb_flash_read, h]

/-- The closed instance of `c5_busy_rejects_jobs` at the busy fixture. -/
theorem c5_busy_rejects_jobs_witness :
    busyFree.busy = true ∧
    (sfcb_mkcb busyFree).1 = 1 ∧ (sfcb_get busyFree 0).1 = 1 ∧
    (sfcb_add cfgT busyFree 0 [1] 1).1 = 1 ∧
    (sfcb_flash_read busyFree 0 4).1 = 1 :=
  have h := c5_busy_rejects_jobs cfgT busyFree 0 1 0 4 0 [1] (by decide)
  ⟨by decide, h.1, h.2.2.2.2.1, h.2.2.1, h.2.2.2.2.2.2.1⟩

/-- C6 (amended): on an idle driver and a used, initialised queue, the
append call returns 4 exactly when `len` exceeds
`pages_per_element * page_size` (the source subtracts no header bytes);
any `len` at or below that product is accepted with code 0 and the job is
staged. -/
theorem c6_add_size_gate (c : Cfg) (s : spi_flash_cb) (q len : Nat)
    (bytes : List Nat) (hb : s.busy = false)
    (hu : (s.cbs.getD q elem0).used = true)
    (hi : (s.cbs.getD q elem0).init = true) :
    ((sfcb_add c s q bytes len).1 = 4 ↔
      (s.cbs.getD q elem0).numPagesPerElem * c.pageSize < len) ∧
    (len ≤ (s.cbs.getD q elem0).numPagesPerElem * c.pageSize →
      (sfcb_add c s q bytes len).1 = 0 ∧
      (sfcb_add c s q bytes len).2.busy = true ∧
      (sfcb_add c s q bytes len).2.cmd = Cmd.add ∧
      (sfcb_add c s q bytes len).2.stg = Stg.s00 ∧
      (sfcb_add c s q bytes len).2.dataLen = len ∧
      (sfcb_add c s q bytes len).2.data = bytes) := by
  constructor
  · by_cases hlt : (s.cbs.getD q elem0).numPagesPerElem * c.pageSize < len
    · simp [-List.getD_eq_getElem?_getD, sfcb_add, hb, hu, hi, hlt]
    · simp [-List.getD_eq_getElem?_getD, sfcb_add, hb, hu, hi, hlt]
  · intro hle
    have hlt : ¬ ((s.cbs.getD q elem0).numPagesPerElem * c.pageSize < len) :=
      by omega
    simp [-List.getD_eq_getElem?_getD, sfcb_add, hb, hu, hi, hlt]

/-- The closed instance of `c6_add_size_gate` at `mqState` with a
maximal accepted length of 256 bytes. -/
theorem c6_add_size_gate_witness :
    (sfcb_add cfgS mqState 0 [] 256).1 = 0 ∧
    (sfcb_add cfgS mqState 0 [] 256).2.busy = true :=
  have h := c6_add_size_gate cfgS mqState 0 256 [] (by decide) (by decide)
    (by decide)
  have h2 := h.2 (by decide)
  ⟨h2.1, h2.2.1⟩

/-- C7 (amended): a successful `register_queue` stores
`pages_per_element = ceil((elem_size + 12) / page_size)` (truncated to the
16-bit field): the source counts `2*sizeof(uint32MagicNum) +
sizeof(uint32IdNumMax) = 12` header bytes, not `2*sizeof(u32) = 8`. -/
theorem c7_ppe_formula (c : Cfg) (s : spi_flash_cb)
    (magic elem nElems k : Nat)
    (hlen : s.numCbs ≤ s.cbs.length)
    (h : (sfcb_new_cb c s magic elem nElems).2.1 = some k) :
    (((sfcb_new_cb c s magic elem nElems).2.2.cbs.getD k
        elem0)).numPagesPerElem =
      spi_flash_cb_ceildivide (elem + 12) c.pageSize % 65536 := by
  cases hf : findFree s.cbs s.numCbs 0 0 with
  | none => simp [sfcb_new_cb, hf] at h
  | some p =>
    obtain ⟨k', st⟩ := p
    have hb := findFree_bound hf
    simp only [sfcb_new_cb, hf, Option.some.injEq] at h ⊢
    subst h
    rw [getD_set_self _ _ _ (by omega)]
    simp [newCbElem, regPpe]

/-- The closed instance of `c7_ppe_formula`: registering a 100-byte
element queue on 256-byte pages stores one page per element. -/
theorem c7_ppe_formula_witness :
    ((sfcb_new_cb cfgS (initState 1 300) 10 100 32).2.2.cbs.getD 0
        elem0).numPagesPerElem =
      spi_flash_cb_ceildivide (100 + 12) cfgS.pageSize % 65536 :=
  c7_ppe_formula cfgS (initState 1 300) 10 100 32 0 (by decide) (by decide)

/-- C10: every rejected job-staging call (nonzero return) leaves the
driver handle and queue table unchanged, and `sfcb_new_cb` additionally
writes no queue id. -/
theorem c10_rejections_mutate_nothing (c : Cfg) (s : spi_flash_cb)
    (magic elem nE q len adr rlen q2 : Nat) (bytes : List Nat) :
    ((sfcb_new_cb c s magic elem nE).1 ≠ 0 →
      (sfcb_new_cb c s magic elem nE).2.1 = none ∧
      (sfcb_new_cb c s magic elem nE).2.2 = s) ∧
    ((sfcb_mkcb s).1 ≠ 0 → (sfcb_mkcb s).2 = s) ∧
    ((sfcb_add c s q bytes len).1 ≠ 0 → (sfcb_add c s q bytes len).2 = s) ∧
    ((sfcb_get s q2).1 ≠ 0 → (sfcb_get s q2).2 = s) ∧
    ((sfcb_flash_read s adr rlen).1 ≠ 0 →
      (sfcb_flash_read s adr rlen).2 = s) := by
  refine ⟨?_, ?_, ?_, ?_, ?_⟩ <;> intro h
  · cases hf : findFree s.cbs s.numCbs 0 0 with
    | none => simp [sfcb_new_cb, hf]
    | some p => simp [sfcb_new_cb, hf] at h
  · unfold sfcb_mkcb at *
    split_ifs at h ⊢ <;> simp_all
  · unfold sfcb_add at *
    split_ifs at h ⊢ <;> simp_all
  · unfold sfcb_get at *
    split_ifs at h ⊢ <;> simp_all
  · unfold sfcb_flash_read at *
    split_ifs at h ⊢ <;> simp_all

/-! ### Job-run preservation lemmas for the ADD command -/

theorem worker_idle (c : Cfg) (s : spi_flash_cb) (h : s.cmd = Cmd.idle) :
    sfcb_worker c s = s := by
  unfold sfcb_worker
  rw [h]

theorem transact_some_fields {c : Cfg} {f : Nat → Nat}
    {s t : spi_flash_cb} (h : transact c f s = some t) :
    t.cbs = s.cbs ∧ t.cmd = s.cmd := by
  unfold transact at h
  split_ifs at h <;> simp only [Option.some.injEq] at h <;>
    subst h <;> exact ⟨rfl, rfl⟩

theorem worker_add_preserves (c : Cfg) (s : spi_flash_cb)
    (h : s.cmd = Cmd.add) :
    (sfcb_worker c s).cbs = s.cbs ∧
    ((sfcb_worker c s).cmd = Cmd.add ∨ (sfcb_worker c s).cmd = Cmd.idle) := by
  unfold sfcb_worker
  rw [h]
  cases hstg : s.stg <;>
    simp [h, addS01, addS02, terminateJob, wipRequest] <;>
    split_ifs <;> simp [h, terminateJob]

theorem runJob_add_cbs (c : Cfg) (f : Nat → Nat) :
    ∀ n (s s' : spi_flash_cb),
      (s.cmd = Cmd.add ∨ s.cmd = Cmd.idle) →
      runJob c f n s = some s' → s'.cbs = s.cbs := by
  intro n
  induction n with
  | zero =>
    intro s s' _ h
    unfold runJob at h
    split at h
    · simp at h
    · simp only [Option.some.injEq] at h
      subst h
      rfl
  | succ m ih =>
    intro s s' hcmd h
    unfold runJob at h
    split at h
    · simp only [Option.some.injEq] at h
      subst h
      rfl
    · split at h
      · simp at h
      · rename_i t ht
        obtain ⟨hcbs, hcmd2⟩ := transact_some_fields ht
        rcases hcmd with hadd | hidle
        · have hw := worker_add_preserves c t (by rw [hcmd2, hadd])
          have hfin := ih (sfcb_worker c t) s' hw.2 h
          rw [hfin, hw.1, hcbs]
        · have hw : sfcb_worker c t = t :=
            worker_idle c t (by rw [hcmd2, hidle])
          rw [hw] at h
          have hfin := ih t s' (Or.inr (by rw [hcmd2, hidle])) h
          rw [hfin, hcbs]

theorem sfcb_add_success_shape (c : Cfg) (s : spi_flash_cb) (q len : Nat)
    (bytes : List Nat) (h0 : (sfcb_add c s q bytes len).1 = 0) :
    (sfcb_add c s q bytes len).2 =
      { s with iterCb := q,
               cbs := s.cbs.set q
                 ({ s.cbs.getD q elem0 with init := false }),
               iterPage := (s.cbs.getD q elem0).startPageWrite,
               data := bytes, dataLen := len, iterElem := 0,
               busy := true, cmd := Cmd.add, stg := Stg.s00,
               error := Err.no } := by
  unfold sfcb_add at h0 ⊢
  split_ifs at h0 ⊢ <;> simp_all

/-- The queue table a completed successful append leaves behind: as staged
by `sfcb_add` (only `init` of the target queue cleared), untouched by every
ADD worker step. -/
theorem add_job_cbs_final (c : Cfg) (f : Nat → Nat) (s : spi_flash_cb)
    (q len n : Nat) (bytes : List Nat) (s' : spi_flash_cb)
    (h0 : (sfcb_add c s q bytes len).1 = 0)
    (h1 : runJob c f n (sfcb_add c s q bytes len).2 = some s') :
    s'.cbs = s.cbs.set q ({ s.cbs.getD q elem0 with init := false }) := by
  rw [sfcb_add_success_shape c s q len bytes h0] at h1
  exact runJob_add_cbs c f n _ s' (Or.inl rfl) h1

theorem sfcb_add_uninit (c : Cfg) (t : spi_flash_cb) (q len : Nat)
    (bytes : List Nat) (h : (t.cbs.getD q elem0).init = false) :
    (sfcb_add c t q bytes len).1 = if t.busy then 1 else 2 := by
  unfold sfcb_add
  split_ifs <;> simp_all

theorem sfcb_get_uninit (t : spi_flash_cb) (q : Nat)
    (h : (t.cbs.getD q elem0).init = false) :
    (sfcb_get t q).1 = if t.busy then 1 else 2 := by
  unfold sfcb_get
  split_ifs <;> simp_all

/-- The closed instance of `c10_rejections_mutate_nothing` on a busy
driver whose single slot is used: all five calls reject and mutate
nothing. -/
theorem c10_rejections_mutate_nothing_witness :
    (sfcb_new_cb cfgT rejState 9 4 2).2.2 = rejState ∧
    (sfcb_mkcb rejState).2 = rejState ∧
    (sfcb_add cfgT rejState 0 [1] 1).2 = rejState ∧
    (sfcb_get rejState 0).2 = rejState ∧
    (sfcb_flash_read rejState 0 4).2 = rejState :=
  have h := c10_rejections_mutate_nothing cfgT rejState 9 4 2 0 1 0 4 0 [1]
  ⟨(h.1 (by decide)).2, h.2.1 (by decide), h.2.2.1 (by decide),
   h.2.2.2.1 (by decide), h.2.2.2.2 (by decide)⟩

/-- C4 (amended): a successful append job leaves the queue descriptor's
`id_num_max` unchanged — the staging call touches only `init`, and no ADD
worker step writes the queue table.  The record is written to flash with
header id `id_num_max + 1`, so `id_num_max` increases only after a
subsequent mount rescans the queue. -/
theorem c4_append_leaves_idnummax (c : Cfg) (f : Nat → Nat)
    (s : spi_flash_cb) (q len n : Nat) (bytes : List Nat)
    (s' : spi_flash_cb)
    (h0 : (sfcb_add c s q bytes len).1 = 0)
    (h1 : runJob c f n (sfcb_add c s q bytes len).2 = some s') :
    (s'.cbs.getD q elem0).idNumMax = (s.cbs.getD q elem0).idNumMax := by
  rw [add_job_cbs_final c f s q len n bytes s' h0 h1]
  by_cases hq : q < s.cbs.length
  · rw [getD_set_self _ _ _ hq]
  · rw [List.set_eq_of_length_le (by omega)]

set_option maxRecDepth 8000 in
/-- The closed instance of `c4_append_leaves_idnummax` at the concrete
append run on `mqState`. -/
theorem c4_append_leaves_idnummax_witness :
    (c4fin.cbs.getD 0 elem0).idNumMax =
      (mqState.cbs.getD 0 elem0).idNumMax :=
  c4_append_leaves_idnummax cfgS flashFF mqState 0 3 10 [17, 34, 51] c4fin
    (by decide) (by decide)

/-- C9: a successful append immediately clears the target queue's
`initialised` flag; the flag is still clear when the ADD job has run to
completion (no ADD worker step sets it), and any append or get attempted
on that queue then fails — with code 1 while the driver is still busy and
code 2 once it is idle — so two appends to the same queue can never both
succeed without a completed mount in between, and a get is likewise
rejected until the remount. -/
theorem c9_append_requires_remount (c : Cfg) (f : Nat → Nat)
    (s : spi_flash_cb) (q len : Nat) (bytes : List Nat)
    (h0 : (sfcb_add c s q bytes len).1 = 0) :
    (((sfcb_add c s q bytes len).2.cbs.getD q elem0).init = false) ∧
    (∀ n s', runJob c f n (sfcb_add c s q bytes len).2 = some s' →
      (s'.cbs.getD q elem0).init = false ∧
      (∀ bytes2 len2, (sfcb_add c s' q bytes2 len2).1 ≠ 0) ∧
      (sfcb_get s' q).1 ≠ 0 ∧
      (s'.busy = false →
        (∀ bytes2 len2, (sfcb_add c s' q bytes2 len2).1 = 2) ∧
        (sfcb_get s' q).1 = 2)) := by
  have hset : ∀ l : List spi_flash_cb_elem, ∀ e : spi_flash_cb_elem,
      ((l.set q ({ e with init := false })).getD q elem0).init = false := by
    intro l e
    by_cases hq : q < l.length
    · rw [getD_set_self _ _ _ hq]
    · rw [List.set_eq_of_length_le (by omega)]
      by_cases hq2 : q < l.length
      · omega
      · rw [List.getD_eq_default _ _ (by omega)]
        rfl
  constructor
  · rw [sfcb_add_success_shape c s q len bytes h0]
    exact hset s.cbs (s.cbs.getD q elem0)
  · intro n s' h1
    have hfin := add_job_cbs_final c f s q len n bytes s' h0 h1
    have hinit : (s'.cbs.getD q elem0).init = false := by
      rw [hfin]; exact hset s.cbs (s.cbs.getD q elem0)
    refine ⟨hinit, ?_, ?_, ?_⟩
    · intro bytes2 len2
      rw [sfcb_add_uninit c s' q len2 bytes2 hinit]
      split_ifs <;> simp
    · rw [sfcb_get_uninit s' q hinit]
      split_ifs <;> simp
    · intro hb
      refine ⟨?_, ?_⟩
      · intro bytes2 len2
        rw [sfcb_add_uninit c s' q len2 bytes2 hinit, hb]
        simp
      · rw [sfcb_get_uninit s' q hinit, hb]
        simp

set_option maxRecDepth 8000 in
/-- The closed instance of `c9_append_requires_remount`: after the
completed append run on `mqState`, a second append and a get on the same
queue both return code 2. -/
theorem c9_append_requires_remount_witness :
    ((sfcb_add cfgS mqState 0 [17, 34, 51] 3).2.cbs.getD 0 elem0).init =
      false ∧
    (sfcb_add cfgS c4fin 0 [9] 1).1 = 2 ∧
    (sfcb_get c4fin 0).1 = 2 :=
  have h := c9_append_requires_remount cfgS flashFF mqState 0 3 [17, 34, 51]
    (by decide)
  have h2 := h.2 10 c4fin (by decide)
  have h3 := h2.2.2.2 (by decide)
  ⟨h.1, h3.1 [9] 1, h3.2⟩

theorem two_le_max2 (x : Nat) : 2 ≤ spi_flash_cb_max 2 x := by
  unfold spi_flash_cb_max
  split_ifs <;> omega

/-- C8 (amended): a successful `register_queue` filling slot `k` stores
`start_sector = 0` for `k = 0` and `queue[k-1].stop_sector + 1` (as a
32-bit store) otherwise; `num_sectors` is
`max(2, ceil(num_elems * pages_per_element / pages_per_sector))` with the
ceiling truncated to the `uint16_t` parameter of `spi_flash_cb_max`, so
the claim's untruncated formula holds exactly when that ceiling fits in
16 bits; `stop_sector = start_sector + num_sectors - 1` and
`num_entries_max = num_sectors * pages_per_sector` hold up to the 32-bit
and 16-bit stores; and when the previously registered slots are chained
and well formed, non-overlap extends to all `i < j ≤ k`. -/
theorem c8_registration_geometry (c : Cfg) (s : spi_flash_cb)
    (magic elem nE k : Nat)
    (hlen : s.numCbs ≤ s.cbs.length)
    (h : (sfcb_new_cb c s magic elem nE).2.1 = some k) :
    (((sfcb_new_cb c s magic elem nE).2.2.cbs.getD k elem0).startSector =
      if k = 0 then 0
      else ((s.cbs.getD (k - 1) elem0).stopSector + 1) % 4294967296) ∧
    (((sfcb_new_cb c s magic elem nE).2.2.cbs.getD k elem0).stopSector =
      (((sfcb_new_cb c s magic elem nE).2.2.cbs.getD k
          elem0).startSector + regNumSectors c elem nE - 1) % 4294967296) ∧
    (((sfcb_new_cb c s magic elem nE).2.2.cbs.getD k
        elem0).numEntriesMax =
      regNumSectors c elem nE * c.pagesPerSector % 65536) ∧
    2 ≤ regNumSectors c elem nE ∧
    (spi_flash_cb_ceildivide (nE * regPpe c elem) c.pagesPerSector <
        65536 →
      regNumSectors c elem nE =
        spi_flash_cb_max 2
          (spi_flash_cb_ceildivide (nE * regPpe c elem)
            c.pagesPerSector)) ∧
    (regNumSectors c elem nE * c.pagesPerSector < 65536 →
      ((sfcb_new_cb c s magic elem nE).2.2.cbs.getD k
          elem0).numEntriesMax =
        regNumSectors c elem nE * c.pagesPerSector) ∧
    (((sfcb_new_cb c s magic elem nE).2.2.cbs.getD k
          elem0).startSector + regNumSectors c elem nE ≤ 4294967296 →
      ((sfcb_new_cb c s magic elem nE).2.2.cbs.getD k elem0).stopSector =
        ((sfcb_new_cb c s magic elem nE).2.2.cbs.getD k
            elem0).startSector + regNumSectors c elem nE - 1 ∧
      ((sfcb_new_cb c s magic elem nE).2.2.cbs.getD k
          elem0).startSector ≤
        ((sfcb_new_cb c s magic elem nE).2.2.cbs.getD k
          elem0).stopSector) ∧
    ((∀ i j, i < j → j < k →
        (s.cbs.getD i elem0).stopSector <
          (s.cbs.getD j elem0).startSector) →
      (∀ j, j < k →
        (s.cbs.getD j elem0).startSector ≤
          (s.cbs.getD j elem0).stopSector) →
      (k = 0 ∨ (s.cbs.getD (k - 1) elem0).stopSector + 1 < 4294967296) →
      ∀ i j, i < j → j ≤ k →
        ((sfcb_new_cb c s magic elem nE).2.2.cbs.getD i
            elem0).stopSector <
          ((sfcb_new_cb c s magic elem nE).2.2.cbs.getD j
            elem0).startSector) := by
  cases hf : findFree s.cbs s.numCbs 0 0 with
  | none => simp [sfcb_new_cb, hf] at h
  | some p =>
    obtain ⟨k', st⟩ := p
    have hb := findFree_bound hf
    obtain ⟨hu, hused, hst⟩ := findFree_spec hf
    have hk : k' = k := by simpa [sfcb_new_cb, hf] using h
    subst hk
    have hklen : k' < s.cbs.length := by omega
    have hpost : (sfcb_new_cb c s magic elem nE).2.2.cbs =
        s.cbs.set k' (newCbElem c (s.cbs.getD k' elem0) magic elem nE st) :=
      by simp [sfcb_new_cb, hf]
    have hE : (sfcb_new_cb c s magic elem nE).2.2.cbs.getD k' elem0 =
        newCbElem c (s.cbs.getD k' elem0) magic elem nE st := by
      rw [hpost, getD_set_self _ _ _ hklen]
    have hns2 : 2 ≤ regNumSectors c elem nE := two_le_max2 _
    refine ⟨?_, ?_, ?_, hns2, ?_, ?_, ?_, ?_⟩
    · rw [hE]
      simpa [newCbElem] using hst
    · rw [hE]
      simp [newCbElem]
    · rw [hE]
      simp [newCbElem]
    · intro htr
      unfold regNumSectors
      rw [Nat.mod_eq_of_lt htr]
    · intro htr2
      rw [hE]
      simp only [newCbElem]
      exact Nat.mod_eq_of_lt htr2
    · intro hnw
      rw [hE] at hnw ⊢
      simp only [newCbElem] at hnw ⊢
      constructor
      · exact Nat.mod_eq_of_lt (by omega)
      · rw [Nat.mod_eq_of_lt (by omega)]
        omega
    · intro hch hwf hprev i j hij hjk
      rcases Nat.lt_or_ge j k' with hjlt | hjge
      · rw [hpost, getD_set_ne _ _ _ _ (by omega),
            getD_set_ne _ _ _ _ (by omega)]
        exact hch i j hij hjlt
      · have hjk' : j = k' := by omega
        subst hjk'
        rw [hpost, getD_set_ne _ _ _ _ (by omega),
            getD_set_self _ _ _ hklen]
        have hkpos : j ≠ 0 := by omega
        have hnw' : (s.cbs.getD (j - 1) elem0).stopSector + 1 <
            4294967296 := by
          rcases hprev with h0 | h1
          · exact absurd h0 hkpos
          · exact h1
        have hstv : st = (s.cbs.getD (j - 1) elem0).stopSector + 1 := by
          rw [hst, if_neg hkpos, Nat.mod_eq_of_lt hnw']
        have hgoal : (s.cbs.getD i elem0).stopSector < st := by
          rw [hstv]
          rcases Nat.lt_or_ge i (j - 1) with hilt | hige
          · have h1 := hch i (j - 1) hilt (by omega)
            have h2 := hwf (j - 1) (by omega)
            omega
          · have : i = j - 1 := by omega
            subst this
            omega
        simpa [newCbElem] using hgoal

/-- Fixture for the C8 witness: the spec's scenario-1 queue 0 (100-byte
elements, 32 entries) registered on a fresh two-slot handle. -/
def c8pre : spi_flash_cb :=
  (sfcb_new_cb cfgS (initState 2 300) 10 100 32).2.2

/-- The closed instance of `c8_registration_geometry`: registering the
spec's scenario-1 queue 1 (250-byte elements, 8 entries) after queue 0
yields `start_sector = 2` = queue 0's `stop_sector + 1`, and the two
queues do not overlap. -/
theorem c8_registration_geometry_witness :
    ((sfcb_new_cb cfgS c8pre 11 250 8).2.2.cbs.getD 1 elem0).startSector =
      ((c8pre.cbs.getD 0 elem0).stopSector + 1) % 4294967296 ∧
    ((sfcb_new_cb cfgS c8pre 11 250 8).2.2.cbs.getD 0 elem0).stopSector <
      ((sfcb_new_cb cfgS c8pre 11 250 8).2.2.cbs.getD 1
        elem0).startSector :=
  have h := c8_registration_geometry cfgS c8pre 11 250 8 1 (by decide)
    (by decide)
  have hno := h.2.2.2.2.2.2.2
    (by intro i j hij hj; omega)
    (by intro j hj
        have hj0 : j = 0 := by omega
        subst hj0
        decide)
    (by right; decide)
    0 1 (by decide) (by decide)
  ⟨by simpa using h.1, hno⟩

end SFCBM
